import Mathlib

/-!
Verification development for the authentication core of the
bodhi-browser-demo-app repository.

The embedding covers the files `src/lib/oauth.ts` (PKCE utilities and the
`OAuthManager` class), `src/lib/extension-client.ts` (`loadExtensionClient`)
and `src/types/extension.ts` (the error classes).

Modelling decisions:
  * `localStorage` is an association list of string key/value pairs with
    `getItem` / `setItem` / `removeItem`.
  * JavaScript truthiness of nullable strings (`!!x`, `!x`, `x || d`) is
    modelled by `jsTruthy` on `Option String`: `null`/absent and the empty
    string are falsy, every other string is truthy.
  * Network effects are oracles: each operation takes the response the
    network would deliver as an explicit argument and reports, alongside its
    result and the updated state, how many requests it issued.
  * `crypto.subtle.digest('SHA-256', …)` and `TextEncoder.encode` are
    platform primitives; they are embedded by the standard SHA-256 and UTF-8
    algorithms over `Nat` bytes.
  * Asynchronous timing (the 100 ms detection poll, the identifier-fetch
    race) is discretised: the k-th poll happens at time `100 * k`, and the
    outcome of the race is an explicit argument.
-/

/-- The `localStorage` model: an association list of key/value string pairs. -/
abbrev Storage := List (String × String)

/-- Model of `localStorage.getItem`. -/
def Storage.getItem (s : Storage) (k : String) : Option String :=
  (List.find? (fun p => p.1 == k) s).map (fun p => p.2)

/-- Model of `localStorage.removeItem`. -/
def Storage.removeItem (s : Storage) (k : String) : Storage :=
  List.filter (fun p => p.1 != k) s

/-- Model of `localStorage.setItem`. -/
def Storage.setItem (s : Storage) (k v : String) : Storage :=
  Storage.removeItem s k ++ [(k, v)]

/-- JavaScript truthiness of a nullable string: `null` (absent) and the empty
string are falsy, every other string is truthy. -/
def jsTruthy : Option String → Bool
  | none => false
  | some s => s != ""

/-- JavaScript `x || d` on a nullable string field. -/
def jsOrDefault (x : Option String) (d : String) : String :=
  match x with
  | none => d
  | some s => if s = "" then d else s

namespace STORAGE_KEYS

def RESOURCE_SCOPE : String := "bodhi_resource_scope"

def ACCESS_TOKEN : String := "bodhi_access_token"

def REFRESH_TOKEN : String := "bodhi_refresh_token"

def CODE_VERIFIER : String := "bodhi_code_verifier"

def STATE : String := "bodhi_state"

def USER_INFO : String := "bodhi_user_info"

end STORAGE_KEYS

/-- The six storage keys in declaration order (`Object.values(STORAGE_KEYS)`). -/
def storageKeyList : List String :=
  [STORAGE_KEYS.RESOURCE_SCOPE, STORAGE_KEYS.ACCESS_TOKEN,
   STORAGE_KEYS.REFRESH_TOKEN, STORAGE_KEYS.CODE_VERIFIER,
   STORAGE_KEYS.STATE, STORAGE_KEYS.USER_INFO]

/-- State of an `OAuthManager` instance: the persisted storage plus the
private mutual-exclusion field `isExchangingTokens`. -/
structure ManagerState where
  storage : Storage
  isExchangingTokens : Bool

/-- Model of `OAuthManager.getAccessToken`. -/
def getAccessToken (s : Storage) : Option String :=
  s.getItem STORAGE_KEYS.ACCESS_TOKEN

/-- Model of `OAuthManager.isAuthenticated`: `!!this.getAccessToken()`. -/
def isAuthenticated (s : Storage) : Bool :=
  jsTruthy (getAccessToken s)

/-- The token-endpoint response as `exchangeCodeForTokens` observes it:
`ok` and `status` from the fetch response, `bodyText` as read by
`response.text()` in the error branch, and the `access_token` /
`refresh_token` fields of the JSON body read in the success branch
(absent fields are `none`). -/
structure TokenEndpointResponse where
  ok : Bool
  status : Nat
  bodyText : String
  access_token : Option String
  refresh_token : Option String

/-- Result of one `exchangeCodeForTokens` call: the settled promise, the
manager state after the call, and the number of token-endpoint requests
issued during the call. -/
structure ExchangeResult where
  result : Except String Unit
  state : ManagerState
  networkRequests : Nat

/-- Model of `OAuthManager.exchangeCodeForTokens`.  The early guards return
without touching anything; afterwards the flag is raised and — through the
`finally` block — lowered again on every path out of the `try`. -/
def exchangeCodeForTokens (m : ManagerState) (code state : String)
    (resp : TokenEndpointResponse) : ExchangeResult :=
  if isAuthenticated m.storage then ⟨Except.ok (), m, 0⟩
  else if m.isExchangingTokens then ⟨Except.ok (), m, 0⟩
  else
    let storedState := m.storage.getItem STORAGE_KEYS.STATE
    let codeVerifier := m.storage.getItem STORAGE_KEYS.CODE_VERIFIER
    if ¬ jsTruthy storedState ∨ storedState ≠ some state then
      ⟨Except.error "Invalid state parameter", ⟨m.storage, false⟩, 0⟩
    else if ¬ jsTruthy codeVerifier then
      ⟨Except.error "Code verifier not found", ⟨m.storage, false⟩, 0⟩
    else if ¬ resp.ok then
      ⟨Except.error ("Token exchange failed: " ++ toString resp.status ++ " " ++ resp.bodyText),
        ⟨m.storage, false⟩, 1⟩
    else if ¬ jsTruthy resp.access_token then
      ⟨Except.error "No access token received", ⟨m.storage, false⟩, 1⟩
    else
      let s1 := m.storage.setItem STORAGE_KEYS.ACCESS_TOKEN (resp.access_token.getD "")
      let s2 := if jsTruthy resp.refresh_token then
          s1.setItem STORAGE_KEYS.REFRESH_TOKEN (resp.refresh_token.getD "")
        else s1
      let s3 := (s2.removeItem STORAGE_KEYS.STATE).removeItem STORAGE_KEYS.CODE_VERIFIER
      ⟨Except.ok (), ⟨s3, false⟩, 1⟩

/-- Model of `OAuthManager.logout`: remove every storage key, clear the flag. -/
def logout (m : ManagerState) : ManagerState :=
  ⟨storageKeyList.foldl Storage.removeItem m.storage, false⟩

/-! ## SHA-256 over `Nat` bytes (model of `crypto.subtle.digest('SHA-256', …)`) -/

/-- Arithmetic is over 32-bit words represented as `Nat` below `2 ^ 32`. -/
def M32 : Nat := 4294967296

/-- 32-bit modular addition. -/
def add32 (a b : Nat) : Nat := (a + b) % M32

/-- Right rotation of a 32-bit word. -/
def rotr32 (n x : Nat) : Nat := (x / 2 ^ n + x % 2 ^ n * 2 ^ (32 - n)) % M32

/-- Logical right shift. -/
def shr32 (n x : Nat) : Nat := x / 2 ^ n

/-- Bitwise complement of a 32-bit word. -/
def not32 (x : Nat) : Nat := x ^^^ 4294967295

def sha256Ch (x y z : Nat) : Nat := (x &&& y) ^^^ (not32 x &&& z)

def sha256Maj (x y z : Nat) : Nat := (x &&& y) ^^^ (x &&& z) ^^^ (y &&& z)

def bigSigma0 (x : Nat) : Nat := rotr32 2 x ^^^ rotr32 13 x ^^^ rotr32 22 x

def bigSigma1 (x : Nat) : Nat := rotr32 6 x ^^^ rotr32 11 x ^^^ rotr32 25 x

def smallSigma0 (x : Nat) : Nat := rotr32 7 x ^^^ rotr32 18 x ^^^ shr32 3 x

def smallSigma1 (x : Nat) : Nat := rotr32 17 x ^^^ rotr32 19 x ^^^ shr32 10 x

/-- The SHA-256 round constants. -/
def sha256K : List Nat :=
  [1116352408, 1899447441, 3049323471, 3921009573, 961987163, 1508970993,
   2453635748, 2870763221, 3624381080, 310598401, 607225278, 1426881987,
   1925078388, 2162078206, 2614888103, 3248222580, 3835390401, 4022224774,
   264347078, 604807628, 770255983, 1249150122, 1555081692, 1996064986,
   2554220882, 2821834349, 2952996808, 3210313671, 3336571891, 3584528711,
   113926993, 338241895, 666307205, 773529912, 1294757372, 1396182291,
   1695183700, 1986661051, 2177026350, 2456956037, 2730485921, 2820302411,
   3259730800, 3345764771, 3516065817, 3600352804, 4094571909, 275423344,
   430227734, 506948616, 659060556, 883997877, 958139571, 1322822218,
   1537002063, 1747873779, 1955562222, 2024104815, 2227730452, 2361852424,
   2428436474, 2756734187, 3204031479, 3329325298]

/-- The SHA-256 initial hash value. -/
def sha256H0 : List Nat :=
  [1779033703, 3144134277, 1013904242, 2773480762,
   1359893119, 2600822924, 528734635, 1541459225]

/-- Message padding: append `0x80`, zero bytes to 56 mod 64, then the bit
length as eight big-endian bytes. -/
def sha256Pad (msg : List Nat) : List Nat :=
  let L := msg.length
  let zeros := (64 + 56 - (L + 1) % 64) % 64
  let bits := 8 * L
  msg ++ [0x80] ++ List.replicate zeros 0 ++
    [bits / 2 ^ 56 % 256, bits / 2 ^ 48 % 256, bits / 2 ^ 40 % 256, bits / 2 ^ 32 % 256,
     bits / 2 ^ 24 % 256, bits / 2 ^ 16 % 256, bits / 2 ^ 8 % 256, bits % 256]

/-- Split a byte list into 64-byte blocks. -/
def toBlocks (l : List Nat) : List (List Nat) :=
  if h : l = [] then [] else l.take 64 :: toBlocks (l.drop 64)
termination_by l.length
decreasing_by
  cases l with
  | nil => exact absurd rfl h
  | cons a t => simp only [List.length_drop, List.length_cons]; omega

/-- Pack bytes into big-endian 32-bit words. -/
def toWords : List Nat → List Nat
  | a :: b :: c :: d :: rest => (a * 2 ^ 24 + b * 2 ^ 16 + c * 2 ^ 8 + d) % M32 :: toWords rest
  | _ => []

/-- One step of the message-schedule extension. -/
def scheduleStep (w : List Nat) : List Nat :=
  w ++ [add32 (add32 (smallSigma1 (w.getD (w.length - 2) 0)) (w.getD (w.length - 7) 0))
          (add32 (smallSigma0 (w.getD (w.length - 15) 0)) (w.getD (w.length - 16) 0))]

/-- The 64-entry message schedule of one block. -/
def sha256Schedule (w16 : List Nat) : List Nat :=
  (List.range 48).foldl (fun w _ => scheduleStep w) w16

/-- Working variables of the compression function. -/
structure ShaState where
  a : Nat
  b : Nat
  c : Nat
  d : Nat
  e : Nat
  f : Nat
  g : Nat
  h : Nat

/-- One compression round; `kw` is `K[t] + W[t]` (mod 2^32). -/
def sha256Round (st : ShaState) (kw : Nat) : ShaState :=
  let t1 := add32 st.h (add32 (bigSigma1 st.e) (add32 (sha256Ch st.e st.f st.g) kw))
  let t2 := add32 (bigSigma0 st.a) (sha256Maj st.a st.b st.c)
  ⟨add32 t1 t2, st.a, st.b, st.c, add32 st.d t1, st.e, st.f, st.g⟩

/-- Compress one 64-byte block into the running hash (a list of 8 words). -/
def sha256Compress (hs : List Nat) (block : List Nat) : List Nat :=
  let w := sha256Schedule (toWords block)
  let st0 : ShaState := ⟨hs.getD 0 0, hs.getD 1 0, hs.getD 2 0, hs.getD 3 0,
                         hs.getD 4 0, hs.getD 5 0, hs.getD 6 0, hs.getD 7 0⟩
  let st := (List.zip sha256K w).foldl (fun st p => sha256Round st (add32 p.1 p.2)) st0
  [add32 (hs.getD 0 0) st.a, add32 (hs.getD 1 0) st.b, add32 (hs.getD 2 0) st.c,
   add32 (hs.getD 3 0) st.d, add32 (hs.getD 4 0) st.e, add32 (hs.getD 5 0) st.f,
   add32 (hs.getD 6 0) st.g, add32 (hs.getD 7 0) st.h]

/-- Big-endian bytes of a 32-bit word. -/
def wordBytes (w : Nat) : List Nat :=
  [w / 2 ^ 24 % 256, w / 2 ^ 16 % 256, w / 2 ^ 8 % 256, w % 256]

/-- SHA-256 of a byte list, as a list of 32 bytes. -/
def sha256 (msg : List Nat) : List Nat :=
  ((toBlocks (sha256Pad msg)).foldl sha256Compress sha256H0).flatMap wordBytes

/-! ## UTF-8 encoding (model of `TextEncoder.encode`) -/

/-- UTF-8 bytes of one character. -/
def utf8EncodeChar (c : Char) : List Nat :=
  let n := c.toNat
  if n < 0x80 then [n]
  else if n < 0x800 then [0xC0 + n / 64, 0x80 + n % 64]
  else if n < 0x10000 then [0xE0 + n / 4096, 0x80 + n / 64 % 64, 0x80 + n % 64]
  else [0xF0 + n / 262144, 0x80 + n / 4096 % 64, 0x80 + n / 64 % 64, 0x80 + n % 64]

/-- UTF-8 bytes of a string. -/
def utf8Encode (s : String) : List Nat :=
  s.data.flatMap utf8EncodeChar

/-! ## Base64 (model of `btoa`) and base64url -/

/-- The standard base64 alphabet. -/
def b64Alphabet : List Char :=
  "ABCDEFGHIJKLMNOPQRSTUVWXYZabcdefghijklmnopqrstuvwxyz0123456789+/".data

/-- The base64url alphabet: same as base64 with `-` and `_` at 62 and 63. -/
def b64UrlAlphabet : List Char :=
  "ABCDEFGHIJKLMNOPQRSTUVWXYZabcdefghijklmnopqrstuvwxyz0123456789-_".data

def b64Char (n : Nat) : Char := b64Alphabet.getD n '?'

def b64UrlChar (n : Nat) : Char := b64UrlAlphabet.getD n '?'

/-- Base64 encoding of a byte list, with `=` padding (the output of
`btoa(String.fromCharCode(...bytes))`). -/
def base64Chars : List Nat → List Char
  | [] => []
  | [a] => [b64Char (a / 4), b64Char (a % 4 * 16), '=', '=']
  | [a, b] => [b64Char (a / 4), b64Char (a % 4 * 16 + b / 16), b64Char (b % 16 * 4), '=']
  | a :: b :: c :: rest =>
      b64Char (a / 4) :: b64Char (a % 4 * 16 + b / 16) ::
      b64Char (b % 16 * 4 + c / 64) :: b64Char (c % 64) :: base64Chars rest

/-- Base64url-without-padding encoding of a byte list: the spec's
"standard base64url-without-padding" of the digest. -/
def base64UrlChars : List Nat → List Char
  | [] => []
  | [a] => [b64UrlChar (a / 4), b64UrlChar (a % 4 * 16)]
  | [a, b] => [b64UrlChar (a / 4), b64UrlChar (a % 4 * 16 + b / 16), b64UrlChar (b % 16 * 4)]
  | a :: b :: c :: rest =>
      b64UrlChar (a / 4) :: b64UrlChar (a % 4 * 16 + b / 16) ::
      b64UrlChar (b % 16 * 4 + c / 64) :: b64UrlChar (c % 64) :: base64UrlChars rest

/-- Model of `btoa` applied to a byte string. -/
def btoaBytes (bs : List Nat) : String := String.mk (base64Chars bs)

/-- JavaScript `s.replace(/a/g, b)` for single characters. -/
def jsReplaceAllChar (s : String) (a b : Char) : String :=
  String.mk (s.data.map (fun c => if c = a then b else c))

/-- JavaScript `s.replace(/a/g, '')` for a single character. -/
def jsRemoveAllChar (s : String) (a : Char) : String :=
  String.mk (s.data.filter (fun c => c ≠ a))

/-- Model of `PKCEUtils.generatePKCEChallenge`: UTF-8 encode, SHA-256,
`btoa`, then `+`→`-`, `/`→`_`, strip `=`. -/
def generatePKCEChallenge (verifier : String) : String :=
  jsRemoveAllChar
    (jsReplaceAllChar (jsReplaceAllChar (btoaBytes (sha256 (utf8Encode verifier))) '+' '-') '/' '_')
    '='

/-- Model of `PKCEUtils.generateRandomString`: the random bytes delivered by
`crypto.getRandomValues` are an explicit argument; each byte maps to a
lowercase letter via `byte % 26 + 97`. -/
def generateRandomString (bytes : List Nat) : String :=
  String.mk (bytes.map (fun b => Char.ofNat (b % 26 + 97)))

/-! ## `buildAuthUrl` and the form-urlencoded query (model of `URLSearchParams`) -/

/-- The fixed application client identifier. -/
def APP_CLIENT_ID : String := "app-a05c53c5-3fc4-409d-833d-f4acc90e1611"

def BODHI_AUTH_URL : String := "https://main-id.getbodhi.app"

def AUTH_REALM : String := "bodhi"

/-- `REDIRECT_URI` is computed from `window.location.origin`; the origin is an
explicit argument of the model. -/
def REDIRECT_URI (origin : String) : String := origin ++ "/callback"

def hexDigitUpper (n : Nat) : Char := "0123456789ABCDEF".data.getD n '?'

def percentEncodeByte (b : Nat) : List Char := ['%', hexDigitUpper (b / 16), hexDigitUpper (b % 16)]

/-- One character under `application/x-www-form-urlencoded` encoding
(the serialisation `URLSearchParams.toString` uses). -/
def formUrlEncodeChar (c : Char) : List Char :=
  if ('A' ≤ c ∧ c ≤ 'Z') ∨ ('a' ≤ c ∧ c ≤ 'z') ∨ ('0' ≤ c ∧ c ≤ '9') ∨
     c = '*' ∨ c = '-' ∨ c = '.' ∨ c = '_' then [c]
  else if c = ' ' then ['+']
  else (utf8EncodeChar c).flatMap percentEncodeByte

def formUrlEncode (s : String) : String := String.mk (s.data.flatMap formUrlEncodeChar)

/-- Serialisation of a parameter list, as interpolating a `URLSearchParams`. -/
def encodeParams (ps : List (String × String)) : String :=
  String.intercalate "&" (ps.map (fun p => formUrlEncode p.1 ++ "=" ++ formUrlEncode p.2))

/-- The parameter object `buildAuthUrl` hands to `URLSearchParams`,
in source order. -/
def authUrlParams (resourceScope state codeChallenge origin : String) : List (String × String) :=
  [("response_type", "code"),
   ("client_id", APP_CLIENT_ID),
   ("redirect_uri", REDIRECT_URI origin),
   ("scope", String.intercalate " "
      ["openid", "email", "profile", "roles", "scope_user_user", resourceScope]),
   ("state", state),
   ("code_challenge", codeChallenge),
   ("code_challenge_method", "S256")]

/-- Model of `OAuthManager.buildAuthUrl`.  The random bytes that
`crypto.getRandomValues` delivers for the state (32 bytes) and the code
verifier (128 bytes) are explicit arguments.  Returns the URL and the
updated storage. -/
def buildAuthUrl (s : Storage) (origin : String) (stateBytes verifierBytes : List Nat) :
    Except String (String × Storage) :=
  let resourceScope := s.getItem STORAGE_KEYS.RESOURCE_SCOPE
  if ¬ jsTruthy resourceScope then
    Except.error "Resource scope not found. Call requestResourceAccess first."
  else
    let state := generateRandomString stateBytes
    let codeVerifier := generateRandomString verifierBytes
    let codeChallenge := generatePKCEChallenge codeVerifier
    let s1 := s.setItem STORAGE_KEYS.STATE state
    let s2 := s1.setItem STORAGE_KEYS.CODE_VERIFIER codeVerifier
    let params := authUrlParams (resourceScope.getD "") state codeChallenge origin
    Except.ok (BODHI_AUTH_URL ++ "/realms/" ++ AUTH_REALM ++ "/protocol/openid-connect/auth?" ++
      encodeParams params, s2)

/-! ## The `UserInfo` record and its JSON round-trip
(`JSON.stringify` / `JSON.parse` in `setUserInfo` / `getUserInfo`) -/

/-- The `UserInfo` shape of `src/types/auth.ts`. -/
structure UserInfo where
  email : String
  role : String
  tokenType : String
  loggedIn : Bool
deriving DecidableEq

def hexDigitLower (n : Nat) : Char := "0123456789abcdef".data.getD n '?'

/-- The escape `JSON.stringify` applies to one character of a string value. -/
def escChar (c : Char) : List Char :=
  if c = '"' then ['\\', '"']
  else if c = '\\' then ['\\', '\\']
  else if c.toNat = 8 then ['\\', 'b']
  else if c.toNat = 9 then ['\\', 't']
  else if c.toNat = 10 then ['\\', 'n']
  else if c.toNat = 12 then ['\\', 'f']
  else if c.toNat = 13 then ['\\', 'r']
  else if c.toNat < 32 then
    ['\\', 'u', '0', '0', hexDigitLower (c.toNat / 16), hexDigitLower (c.toNat % 16)]
  else [c]

/-- `JSON.stringify` of a string value. -/
def jsonQuote (s : String) : String := "\"" ++ String.mk (s.data.flatMap escChar) ++ "\""

/-- `JSON.stringify` of a `UserInfo` object (fields in declaration order). -/
def stringifyUserInfo (u : UserInfo) : String :=
  "\x7b\"email\":" ++ jsonQuote u.email ++ ",\"role\":" ++ jsonQuote u.role ++
  ",\"tokenType\":" ++ jsonQuote u.tokenType ++ ",\"loggedIn\":" ++
  (cond u.loggedIn "true" "false") ++ "\x7d"

/-- Value of one hexadecimal digit. -/
def hexVal (c : Char) : Option Nat :=
  if '0' ≤ c ∧ c ≤ '9' then some (c.toNat - 48)
  else if 'a' ≤ c ∧ c ≤ 'f' then some (c.toNat - 87)
  else if 'A' ≤ c ∧ c ≤ 'F' then some (c.toNat - 55)
  else none

/-- The single-character JSON escapes `JSON.parse` accepts after a backslash. -/
def decodeEscChar (e : Char) : Option Char :=
  if e = '"' then some '"'
  else if e = '\\' then some '\\'
  else if e = '/' then some '/'
  else if e = 'b' then some (Char.ofNat 8)
  else if e = 't' then some (Char.ofNat 9)
  else if e = 'n' then some (Char.ofNat 10)
  else if e = 'f' then some (Char.ofNat 12)
  else if e = 'r' then some (Char.ofNat 13)
  else none

/-- JSON string-body parsing (after the opening quote): returns the decoded
characters and the remaining input.  Models `JSON.parse` on string values. -/
def parseStrAux : List Char → Option (List Char × List Char)
  | [] => none
  | c :: rest =>
    if c = '"' then some ([], rest)
    else if c = '\\' then
      match rest with
      | [] => none
      | e :: rest2 =>
        if e = 'u' then
          match rest2 with
          | h1 :: h2 :: h3 :: h4 :: rest3 =>
            match hexVal h1, hexVal h2, hexVal h3, hexVal h4 with
            | some a, some b, some c2, some d =>
                (parseStrAux rest3).map
                  (fun p => (Char.ofNat (a * 4096 + b * 256 + c2 * 16 + d) :: p.1, p.2))
            | _, _, _, _ => none
          | _ => none
        else
          match decodeEscChar e with
          | some dc => (parseStrAux rest2).map (fun p => (dc :: p.1, p.2))
          | none => none
    else (parseStrAux rest).map (fun p => (c :: p.1, p.2))

/-- A JSON string value: an opening quote followed by the string body. -/
def parseJsonStr : List Char → Option (List Char × List Char)
  | '"' :: rest => parseStrAux rest
  | _ => none

/-- Consume an expected literal character sequence. -/
def expectChars : List Char → List Char → Option (List Char)
  | l, [] => some l
  | [], _ :: _ => none
  | c :: l, d :: ds => if c = d then expectChars l ds else none

/-- Parse a JSON boolean literal. -/
def parseBoolLit : List Char → Option (Bool × List Char)
  | 't' :: 'r' :: 'u' :: 'e' :: rest => some (true, rest)
  | 'f' :: 'a' :: 'l' :: 's' :: 'e' :: rest => some (false, rest)
  | _ => none

/-- Model of `JSON.parse` restricted to the object shape `JSON.stringify`
produces for a `UserInfo` (the only shape `getUserInfo` ever stores); any
other input is a parse failure, which the `catch` turns into `null`. -/
def parseUserInfoChars (l : List Char) : Option UserInfo := do
  let l ← expectChars l ("\x7b\"email\":").data
  let (email, l) ← parseJsonStr l
  let l ← expectChars l (",\"role\":").data
  let (role, l) ← parseJsonStr l
  let l ← expectChars l (",\"tokenType\":").data
  let (tokenType, l) ← parseJsonStr l
  let l ← expectChars l (",\"loggedIn\":").data
  let (b, l) ← parseBoolLit l
  let l ← expectChars l ("\x7d").data
  if l = [] then some ⟨String.mk email, String.mk role, String.mk tokenType, b⟩ else none

/-- Model of `OAuthManager.getUserInfo`: `null` on a missing or falsy entry,
`null` (via the `catch`) on a failed parse. -/
def getUserInfo (s : Storage) : Option UserInfo :=
  match s.getItem STORAGE_KEYS.USER_INFO with
  | none => none
  | some str => if str = "" then none else parseUserInfoChars str.data

/-- Model of `OAuthManager.setUserInfo`. -/
def setUserInfo (s : Storage) (u : UserInfo) : Storage :=
  s.setItem STORAGE_KEYS.USER_INFO (stringifyUserInfo u)

/-! ## `fetchUserInfo` -/

/-- Record of one `sendApiRequest` call as `fetchUserInfo` issues it. -/
structure ApiRequestRecord where
  method : String
  endpoint : String
  authHeader : String
deriving DecidableEq

/-- The fields of the user-info response body that `fetchUserInfo` reads
(absent fields are `none`). -/
structure UserEndpointBody where
  email : Option String
  role : Option String

/-- Result of one `fetchUserInfo` call: the settled promise, the storage
after the call, and the bridge request issued (if any). -/
structure FetchUserResult where
  result : Except String UserInfo
  storage : Storage
  request : Option ApiRequestRecord

/-- Model of `OAuthManager.fetchUserInfo`.  The outcome of the bridge call is
an explicit argument: `Except.error` is a rejection of `sendApiRequest`,
`Except.ok` carries the response body fields. -/
def fetchUserInfo (s : Storage) (bridge : Except String UserEndpointBody) : FetchUserResult :=
  let accessToken := getAccessToken s
  if ¬ jsTruthy accessToken then
    ⟨Except.error "No access token available", s, none⟩
  else
    let req : ApiRequestRecord := ⟨"GET", "/bodhi/v1/user", "Bearer " ++ accessToken.getD ""⟩
    match bridge with
    | Except.error e => ⟨Except.error ("Failed to fetch user info: " ++ e), s, some req⟩
    | Except.ok body =>
        let userInfo : UserInfo :=
          ⟨jsOrDefault body.email "Unknown", jsOrDefault body.role "user", "Bearer", true⟩
        ⟨Except.ok userInfo, setUserInfo s userInfo, some req⟩

/-! ## Extension detection (`loadExtensionClient` and the error classes) -/

/-- The two error classes of `src/types/extension.ts`, each carrying the
timeout value its message embeds. -/
inductive ExtensionError where
  | notFound (timeoutMs : Nat)
  | timeoutFetchingId (timeoutMs : Nat)
deriving DecidableEq

/-- The `message` of each error class constructor. -/
def extensionErrorMessage : ExtensionError → String
  | ExtensionError.notFound t => "Bodhi extension not detected within " ++ toString t ++ "ms"
  | ExtensionError.timeoutFetchingId t => "Timeout fetching extension ID within " ++ toString t ++ "ms"

/-- Outcome of the `Promise.race` between `getExtensionId()` and the second
timeout: the identifier resolves in time, the timeout wins, or the
identifier call rejects for some other reason. -/
inductive IdFetchOutcome where
  | resolvedInTime (id : String)
  | timedOut
  | rejectedOther (message : String)

/-- The polling loop of `loadExtensionClient`, discretised: the k-th check of
`window.bodhiext` happens at elapsed time `100 * k` (the fixed 100 ms
`setTimeout` interval); availability at check k is `available k`.  The loop
resolves `true` the first time the object is present, and `false` when the
elapsed time has reached the timeout with the object still absent. -/
def detectLoop (available : Nat → Bool) (timeoutMs k : Nat) : Bool :=
  if available k then true
  else if timeoutMs ≤ 100 * k then false
  else detectLoop available timeoutMs (k + 1)
termination_by timeoutMs - 100 * k
decreasing_by omega

/-- Model of `loadExtensionClient`: poll for the capability object, then race
the identifier fetch against a second timeout of the same length; every
failure of that second phase — the classified rethrow as well as the
catch-all — is an `ExtensionTimeoutError`. -/
def loadExtensionClient (available : Nat → Bool) (timeoutMs : Nat) (idFetch : IdFetchOutcome) :
    Except ExtensionError String :=
  if detectLoop available timeoutMs 0 then
    match idFetch with
    | IdFetchOutcome.resolvedInTime id => Except.ok id
    | IdFetchOutcome.timedOut => Except.error (ExtensionError.timeoutFetchingId timeoutMs)
    | IdFetchOutcome.rejectedOther _ => Except.error (ExtensionError.timeoutFetchingId timeoutMs)
  else Except.error (ExtensionError.notFound timeoutMs)

/-! ## Storage lemmas -/

theorem getItem_removeItem (s : Storage) (k k' : String) :
    (s.removeItem k).getItem k' = if k' = k then none else s.getItem k' := by
  induction s with
  | nil => simp [Storage.removeItem, Storage.getItem]
  | cons a t ih =>
    simp only [Storage.removeItem, List.filter_cons] at ih ⊢
    by_cases hak : a.1 = k
    · simp only [hak, bne_self_eq_false]
      rw [if_neg (by simp : ¬ (false = true))]
      rw [ih]
      by_cases hk : k' = k
      · simp [hk]
      · simp only [if_neg hk, Storage.getItem, List.find?_cons]
        have hkk : (k == k') = false := by
          simp only [beq_eq_false_iff_ne, ne_eq]; exact fun h => hk h.symm
        simp [hak, hkk]
    · have hbne : (a.1 != k) = true := by simp [bne, hak]
      simp only [hbne, if_pos]
      by_cases hk' : a.1 = k'
      · have hpos : (a.1 == k') = true := by simp [hk']
        simp only [Storage.getItem, List.find?_cons, hpos]
        have hkk : ¬ k' = k := fun h => hak (hk'.trans h)
        simp [hkk]
      · have hneg : (a.1 == k') = false := by simp [hk']
        simp only [Storage.getItem, List.find?_cons, hneg] at ih ⊢
        exact ih

theorem getItem_setItem (s : Storage) (k v k' : String) :
    (s.setItem k v).getItem k' = if k' = k then some v else s.getItem k' := by
  have hrm := getItem_removeItem s k k'
  unfold Storage.setItem
  unfold Storage.getItem at hrm ⊢
  rw [List.find?_append]
  by_cases hk : k' = k
  · subst hk
    have hnone : List.find? (fun p => p.1 == k') (s.removeItem k') = none := by
      rw [if_pos rfl] at hrm
      cases hfind : List.find? (fun p => p.1 == k') (s.removeItem k') with
      | none => rfl
      | some p => rw [hfind] at hrm; simp at hrm
    simp [hnone, List.find?_cons]
  · have hfk : ((k, v).1 == k') = false := by
      simp only [beq_eq_false_iff_ne, ne_eq]
      exact fun h => hk h.symm
    have h1 : List.find? (fun p => p.1 == k') [(k, v)] = none := by
      simp [List.find?_cons, hfk]
    rw [h1, if_neg hk] at *
    rw [Option.or_none]
    exact hrm

theorem jsTruthy_some_getD (o : Option String) (h : jsTruthy o = true) : some (o.getD "") = o := by
  cases o with
  | none => simp [jsTruthy] at h
  | some s => rfl

/-! ## Claims about `exchangeCodeForTokens` -/

/-- C1: when the manager is not already authenticated and no exchange is in
flight, a missing or mismatching persisted `bodhi_state` makes
`exchangeCodeForTokens` reject with "Invalid state parameter" and issue no
token-endpoint request. -/
theorem exchangeCodeForTokens_invalid_state (m : ManagerState) (code state : String)
    (resp : TokenEndpointResponse)
    (hauth : isAuthenticated m.storage = false)
    (hflag : m.isExchangingTokens = false)
    (hstate : m.storage.getItem STORAGE_KEYS.STATE = none ∨
              m.storage.getItem STORAGE_KEYS.STATE ≠ some state) :
    (exchangeCodeForTokens m code state resp).result = Except.error "Invalid state parameter" ∧
    (exchangeCodeForTokens m code state resp).networkRequests = 0 := by
  have hcond : ¬ jsTruthy (m.storage.getItem STORAGE_KEYS.STATE) ∨
      m.storage.getItem STORAGE_KEYS.STATE ≠ some state := by
    rcases hstate with h | h
    · left; rw [h]; simp [jsTruthy]
    · right; exact h
  unfold exchangeCodeForTokens
  simp only [hauth, hflag, Bool.false_eq_true, if_false]
  rw [if_pos hcond]
  exact ⟨rfl, rfl⟩

/-- Witness for C1 at a concrete manager state (empty storage, so the
persisted state entry is absent). -/
theorem exchangeCodeForTokens_invalid_state_witness :
    isAuthenticated ([] : Storage) = false ∧
    (exchangeCodeForTokens ⟨[], false⟩ "authcode" "mismatch"
        ⟨true, 200, "", some "tok", none⟩).result = Except.error "Invalid state parameter" ∧
    (exchangeCodeForTokens ⟨[], false⟩ "authcode" "mismatch"
        ⟨true, 200, "", some "tok", none⟩).networkRequests = 0 := by
  have h := exchangeCodeForTokens_invalid_state ⟨[], false⟩ "authcode" "mismatch"
      ⟨true, 200, "", some "tok", none⟩ rfl rfl (Or.inl rfl)
  exact ⟨rfl, h.1, h.2⟩

/-- C3: a call on an already-authenticated manager or with an exchange in
flight is a complete no-op (resolves ok, zero requests, state untouched);
a call that actually runs (flag down at entry) leaves the in-flight flag
false whatever the outcome. -/
theorem exchangeCodeForTokens_mutual_exclusion (m : ManagerState) (code state : String)
    (resp : TokenEndpointResponse) :
    (isAuthenticated m.storage = true ∨ m.isExchangingTokens = true →
      exchangeCodeForTokens m code state resp = ⟨Except.ok (), m, 0⟩) ∧
    (m.isExchangingTokens = false →
      (exchangeCodeForTokens m code state resp).state.isExchangingTokens = false) := by
  constructor
  · intro h
    unfold exchangeCodeForTokens
    rcases h with h | h
    · rw [if_pos h]
    · by_cases ha : isAuthenticated m.storage
      · rw [if_pos ha]
      · rw [if_neg ha, if_pos h]
  · intro hflag
    unfold exchangeCodeForTokens
    by_cases ha : isAuthenticated m.storage
    · rw [if_pos ha]; exact hflag
    · rw [if_neg ha]
      simp only [hflag, Bool.false_eq_true, if_false]
      split
      · rfl
      · split
        · rfl
        · split
          · rfl
          · split <;> rfl

/-- Witness for C3: an authenticated manager, a manager with the flag up, and
a run that completes, each at concrete inputs. -/
theorem exchangeCodeForTokens_mutual_exclusion_witness :
    (exchangeCodeForTokens ⟨[(STORAGE_KEYS.ACCESS_TOKEN, "tok")], false⟩ "c" "s"
        ⟨true, 200, "", some "tok2", none⟩ =
      ⟨Except.ok (), ⟨[(STORAGE_KEYS.ACCESS_TOKEN, "tok")], false⟩, 0⟩) ∧
    (exchangeCodeForTokens ⟨[], true⟩ "c" "s" ⟨true, 200, "", some "tok2", none⟩ =
      ⟨Except.ok (), ⟨[], true⟩, 0⟩) ∧
    (exchangeCodeForTokens ⟨[], false⟩ "c" "s"
        ⟨true, 200, "", some "tok2", none⟩).state.isExchangingTokens = false := by
  refine ⟨?_, ?_, ?_⟩
  · exact (exchangeCodeForTokens_mutual_exclusion ⟨[(STORAGE_KEYS.ACCESS_TOKEN, "tok")], false⟩
      "c" "s" ⟨true, 200, "", some "tok2", none⟩).1 (Or.inl (by decide))
  · exact (exchangeCodeForTokens_mutual_exclusion ⟨[], true⟩
      "c" "s" ⟨true, 200, "", some "tok2", none⟩).1 (Or.inr rfl)
  · exact (exchangeCodeForTokens_mutual_exclusion ⟨[], false⟩
      "c" "s" ⟨true, 200, "", some "tok2", none⟩).2 rfl

/-- C5: a non-success HTTP status makes the exchange reject with the numeric
status code and the response body text in the message, and storage is left
unchanged (so no access or refresh token is persisted by the call). -/
theorem exchangeCodeForTokens_http_error (m : ManagerState) (code state : String)
    (resp : TokenEndpointResponse)
    (hauth : isAuthenticated m.storage = false)
    (hflag : m.isExchangingTokens = false)
    (hst : m.storage.getItem STORAGE_KEYS.STATE = some state)
    (hsne : state ≠ "")
    (hcv : jsTruthy (m.storage.getItem STORAGE_KEYS.CODE_VERIFIER) = true)
    (hok : resp.ok = false) :
    (exchangeCodeForTokens m code state resp).result =
      Except.error ("Token exchange failed: " ++ toString resp.status ++ " " ++ resp.bodyText) ∧
    (exchangeCodeForTokens m code state resp).state.storage = m.storage := by
  unfold exchangeCodeForTokens
  simp only [hauth, hflag, Bool.false_eq_true, if_false]
  have hcond : ¬ (¬ jsTruthy (m.storage.getItem STORAGE_KEYS.STATE) ∨
      m.storage.getItem STORAGE_KEYS.STATE ≠ some state) := by
    rw [hst]
    push_neg
    refine ⟨?_, rfl⟩
    simp [jsTruthy, bne_iff_ne, hsne]
  rw [if_neg hcond, if_neg (by simp [hcv]), if_pos (by simp [hok])]
  exact ⟨rfl, rfl⟩

/-- Witness for C5: the spec scenario, HTTP 400 with an invalid_grant body. -/
theorem exchangeCodeForTokens_http_error_witness :
    (exchangeCodeForTokens
        ⟨[(STORAGE_KEYS.STATE, "st"), (STORAGE_KEYS.CODE_VERIFIER, "cv")], false⟩ "code" "st"
        ⟨false, 400, "\x7b\"error\":\"invalid_grant\"\x7d", none, none⟩).result =
      Except.error ("Token exchange failed: " ++ toString (400 : Nat) ++ " " ++
        "\x7b\"error\":\"invalid_grant\"\x7d") ∧
    (exchangeCodeForTokens
        ⟨[(STORAGE_KEYS.STATE, "st"), (STORAGE_KEYS.CODE_VERIFIER, "cv")], false⟩ "code" "st"
        ⟨false, 400, "\x7b\"error\":\"invalid_grant\"\x7d", none, none⟩).state.storage =
      [(STORAGE_KEYS.STATE, "st"), (STORAGE_KEYS.CODE_VERIFIER, "cv")] := by
  have h := exchangeCodeForTokens_http_error
      ⟨[(STORAGE_KEYS.STATE, "st"), (STORAGE_KEYS.CODE_VERIFIER, "cv")], false⟩ "code" "st"
      ⟨false, 400, "\x7b\"error\":\"invalid_grant\"\x7d", none, none⟩
      (by decide) rfl (by decide) (by decide) (by decide) rfl
  exact ⟨h.1, h.2⟩

/-- C4: on a successful exchange the access token is persisted, the refresh
token is written exactly when the response carries a (non-empty) one, and
the transient `bodhi_state` and `bodhi_code_verifier` entries are deleted. -/
theorem exchangeCodeForTokens_success (m : ManagerState) (code state : String)
    (resp : TokenEndpointResponse) (tok : String)
    (hauth : isAuthenticated m.storage = false)
    (hflag : m.isExchangingTokens = false)
    (hst : m.storage.getItem STORAGE_KEYS.STATE = some state)
    (hsne : state ≠ "")
    (hcv : jsTruthy (m.storage.getItem STORAGE_KEYS.CODE_VERIFIER) = true)
    (hok : resp.ok = true)
    (hat : resp.access_token = some tok)
    (hatne : tok ≠ "") :
    (exchangeCodeForTokens m code state resp).result = Except.ok () ∧
    (exchangeCodeForTokens m code state resp).state.storage.getItem STORAGE_KEYS.ACCESS_TOKEN
      = some tok ∧
    (jsTruthy resp.refresh_token = true →
      (exchangeCodeForTokens m code state resp).state.storage.getItem STORAGE_KEYS.REFRESH_TOKEN
        = resp.refresh_token) ∧
    (jsTruthy resp.refresh_token = false →
      (exchangeCodeForTokens m code state resp).state.storage.getItem STORAGE_KEYS.REFRESH_TOKEN
        = m.storage.getItem STORAGE_KEYS.REFRESH_TOKEN) ∧
    (exchangeCodeForTokens m code state resp).state.storage.getItem STORAGE_KEYS.STATE = none ∧
    (exchangeCodeForTokens m code state resp).state.storage.getItem STORAGE_KEYS.CODE_VERIFIER
      = none := by
  have hred : exchangeCodeForTokens m code state resp =
      ⟨Except.ok (), ⟨(((if jsTruthy resp.refresh_token then
          (m.storage.setItem STORAGE_KEYS.ACCESS_TOKEN (resp.access_token.getD "")).setItem
            STORAGE_KEYS.REFRESH_TOKEN (resp.refresh_token.getD "")
        else m.storage.setItem STORAGE_KEYS.ACCESS_TOKEN
          (resp.access_token.getD "")).removeItem STORAGE_KEYS.STATE).removeItem
          STORAGE_KEYS.CODE_VERIFIER), false⟩, 1⟩ := by
    unfold exchangeCodeForTokens
    simp only [hauth, hflag, Bool.false_eq_true, if_false]
    have hcond : ¬ (¬ jsTruthy (m.storage.getItem STORAGE_KEYS.STATE) ∨
        m.storage.getItem STORAGE_KEYS.STATE ≠ some state) := by
      rw [hst]
      push_neg
      refine ⟨?_, rfl⟩
      simp [jsTruthy, bne_iff_ne, hsne]
    have htt : jsTruthy resp.access_token = true := by
      rw [hat]; simp [jsTruthy, bne_iff_ne, hatne]
    rw [if_neg hcond, if_neg (by simp [hcv]), if_neg (by simp [hok]), if_neg (by simp [htt])]
  have hgetD : resp.access_token.getD "" = tok := by rw [hat]; rfl
  rw [hred]
  refine ⟨rfl, ?_, ?_, ?_, ?_, ?_⟩
  · by_cases hr : jsTruthy resp.refresh_token
    · simp only [if_pos hr]
      rw [getItem_removeItem, if_neg (by decide), getItem_removeItem, if_neg (by decide),
        getItem_setItem, if_neg (by decide), getItem_setItem, if_pos rfl, hgetD]
    · simp only [if_neg hr]
      rw [getItem_removeItem, if_neg (by decide), getItem_removeItem, if_neg (by decide),
        getItem_setItem, if_pos rfl, hgetD]
  · intro hr
    simp only [if_pos hr]
    rw [getItem_removeItem, if_neg (by decide), getItem_removeItem, if_neg (by decide),
      getItem_setItem, if_pos rfl]
    exact jsTruthy_some_getD _ hr
  · intro hr
    simp only [if_neg (by simp [hr] : ¬ jsTruthy resp.refresh_token = true)]
    rw [getItem_removeItem, if_neg (by decide), getItem_removeItem, if_neg (by decide),
      getItem_setItem, if_neg (by decide)]
  · by_cases hr : jsTruthy resp.refresh_token
    · simp only [if_pos hr]
      rw [getItem_removeItem, if_neg (by decide), getItem_removeItem, if_pos rfl]
    · simp only [if_neg hr]
      rw [getItem_removeItem, if_neg (by decide), getItem_removeItem, if_pos rfl]
  · by_cases hr : jsTruthy resp.refresh_token
    · simp only [if_pos hr]
      rw [getItem_removeItem, if_pos rfl]
    · simp only [if_neg hr]
      rw [getItem_removeItem, if_pos rfl]

/-- Witness for C4 at a concrete exchange with a refresh token present. -/
theorem exchangeCodeForTokens_success_witness :
    (exchangeCodeForTokens
        ⟨[(STORAGE_KEYS.STATE, "st"), (STORAGE_KEYS.CODE_VERIFIER, "cv")], false⟩ "code" "st"
        ⟨true, 200, "", some "acc", some "ref"⟩).result = Except.ok () ∧
    (exchangeCodeForTokens
        ⟨[(STORAGE_KEYS.STATE, "st"), (STORAGE_KEYS.CODE_VERIFIER, "cv")], false⟩ "code" "st"
        ⟨true, 200, "", some "acc", some "ref"⟩).state.storage.getItem
        STORAGE_KEYS.ACCESS_TOKEN = some "acc" ∧
    (exchangeCodeForTokens
        ⟨[(STORAGE_KEYS.STATE, "st"), (STORAGE_KEYS.CODE_VERIFIER, "cv")], false⟩ "code" "st"
        ⟨true, 200, "", some "acc", some "ref"⟩).state.storage.getItem
        STORAGE_KEYS.REFRESH_TOKEN = some "ref" ∧
    (exchangeCodeForTokens
        ⟨[(STORAGE_KEYS.STATE, "st"), (STORAGE_KEYS.CODE_VERIFIER, "cv")], false⟩ "code" "st"
        ⟨true, 200, "", some "acc", some "ref"⟩).state.storage.getItem
        STORAGE_KEYS.STATE = none ∧
    (exchangeCodeForTokens
        ⟨[(STORAGE_KEYS.STATE, "st"), (STORAGE_KEYS.CODE_VERIFIER, "cv")], false⟩ "code" "st"
        ⟨true, 200, "", some "acc", some "ref"⟩).state.storage.getItem
        STORAGE_KEYS.CODE_VERIFIER = none := by
  have h := exchangeCodeForTokens_success
      ⟨[(STORAGE_KEYS.STATE, "st"), (STORAGE_KEYS.CODE_VERIFIER, "cv")], false⟩ "code" "st"
      ⟨true, 200, "", some "acc", some "ref"⟩ "acc"
      (by decide) rfl (by decide) (by decide) (by decide) rfl rfl (by decide)
  exact ⟨h.1, h.2.1, (h.2.2.1 (by decide)), h.2.2.2.2.1, h.2.2.2.2.2⟩

/-- C7: `logout` removes all six persisted keys and clears the in-flight
flag; immediately afterwards `isAuthenticated` is false and `getUserInfo`
is null. -/
theorem logout_clears_session (m : ManagerState) :
    (logout m).storage.getItem STORAGE_KEYS.RESOURCE_SCOPE = none ∧
    (logout m).storage.getItem STORAGE_KEYS.ACCESS_TOKEN = none ∧
    (logout m).storage.getItem STORAGE_KEYS.REFRESH_TOKEN = none ∧
    (logout m).storage.getItem STORAGE_KEYS.CODE_VERIFIER = none ∧
    (logout m).storage.getItem STORAGE_KEYS.STATE = none ∧
    (logout m).storage.getItem STORAGE_KEYS.USER_INFO = none ∧
    (logout m).isExchangingTokens = false ∧
    isAuthenticated (logout m).storage = false ∧
    getUserInfo (logout m).storage = none := by
  have hfold : (logout m).storage =
      (((((m.storage.removeItem STORAGE_KEYS.RESOURCE_SCOPE).removeItem
        STORAGE_KEYS.ACCESS_TOKEN).removeItem STORAGE_KEYS.REFRESH_TOKEN).removeItem
        STORAGE_KEYS.CODE_VERIFIER).removeItem STORAGE_KEYS.STATE).removeItem
        STORAGE_KEYS.USER_INFO := rfl
  have hall : ∀ k, k ∈ storageKeyList → (logout m).storage.getItem k = none := by
    intro k hk
    rw [hfold]
    fin_cases hk <;>
      simp [getItem_removeItem, STORAGE_KEYS.RESOURCE_SCOPE, STORAGE_KEYS.ACCESS_TOKEN,
        STORAGE_KEYS.REFRESH_TOKEN, STORAGE_KEYS.CODE_VERIFIER, STORAGE_KEYS.STATE,
        STORAGE_KEYS.USER_INFO]
  refine ⟨hall _ (by simp [storageKeyList]), hall _ (by simp [storageKeyList]),
    hall _ (by simp [storageKeyList]), hall _ (by simp [storageKeyList]),
    hall _ (by simp [storageKeyList]), hall _ (by simp [storageKeyList]), rfl, ?_, ?_⟩
  · unfold isAuthenticated getAccessToken
    rw [hall _ (by simp [storageKeyList])]
    rfl
  · unfold getUserInfo
    rw [hall _ (by simp [storageKeyList])]

/-! ## JSON round-trip lemmas -/

theorem hexVal_hexDigitLower : ∀ d, d < 16 → hexVal (hexDigitLower d) = some d := by decide

theorem expectChars_append (pre l : List Char) : expectChars (pre ++ l) pre = some l := by
  induction pre with
  | nil => simp [expectChars]
  | cons c t ih => simp [expectChars, ih]

theorem expectChars_self (pre : List Char) : expectChars pre pre = some [] := by
  have h := expectChars_append pre []
  rwa [List.append_nil] at h

theorem parseStrAux_escape (l rest : List Char) :
    parseStrAux (l.flatMap escChar ++ '"' :: rest) = some (l, rest) := by
  induction l with
  | nil => rw [parseStrAux.eq_def]; simp
  | cons c t ih =>
    simp only [List.flatMap_cons, List.append_assoc]
    by_cases h1 : c = '"'
    · subst h1
      simp only [escChar, if_pos rfl, List.cons_append, List.nil_append]
      rw [parseStrAux.eq_def]
      simp [decodeEscChar, ih]
    · by_cases h2 : c = '\\'
      · subst h2
        simp only [escChar, if_neg h1, if_pos rfl, List.cons_append, List.nil_append]
        rw [parseStrAux.eq_def]
        simp [decodeEscChar, ih]
      · by_cases h3 : c.toNat = 8
        · have hc : c = Char.ofNat 8 := by rw [← Char.ofNat_toNat c, h3]
          rw [hc]
          rw [show escChar (Char.ofNat 8) = ['\\', 'b'] from by decide]
          simp only [List.cons_append, List.nil_append]
          rw [parseStrAux.eq_def]
          simp [decodeEscChar, ih]
        · by_cases h4 : c.toNat = 9
          · have hc : c = Char.ofNat 9 := by rw [← Char.ofNat_toNat c, h4]
            rw [hc]
            rw [show escChar (Char.ofNat 9) = ['\\', 't'] from by decide]
            simp only [List.cons_append, List.nil_append]
            rw [parseStrAux.eq_def]
            simp [decodeEscChar, ih]
          · by_cases h5 : c.toNat = 10
            · have hc : c = Char.ofNat 10 := by rw [← Char.ofNat_toNat c, h5]
              rw [hc]
              rw [show escChar (Char.ofNat 10) = ['\\', 'n'] from by decide]
              simp only [List.cons_append, List.nil_append]
              rw [parseStrAux.eq_def]
              simp [decodeEscChar, ih]
            · by_cases h6 : c.toNat = 12
              · have hc : c = Char.ofNat 12 := by rw [← Char.ofNat_toNat c, h6]
                rw [hc]
                rw [show escChar (Char.ofNat 12) = ['\\', 'f'] from by decide]
                simp only [List.cons_append, List.nil_append]
                rw [parseStrAux.eq_def]
                simp [decodeEscChar, ih]
              · by_cases h7 : c.toNat = 13
                · have hc : c = Char.ofNat 13 := by rw [← Char.ofNat_toNat c, h7]
                  rw [hc]
                  rw [show escChar (Char.ofNat 13) = ['\\', 'r'] from by decide]
                  simp only [List.cons_append, List.nil_append]
                  rw [parseStrAux.eq_def]
                  simp [decodeEscChar, ih]
                · by_cases h8 : c.toNat < 32
                  · have e1 : escChar c = ['\\', 'u', '0', '0',
                        hexDigitLower (c.toNat / 16), hexDigitLower (c.toNat % 16)] := by
                      simp [escChar, h1, h2, h3, h4, h5, h6, h7, h8]
                    rw [e1]
                    have hv0 : hexVal '0' = some 0 := rfl
                    have hv1 : hexVal (hexDigitLower (c.toNat / 16)) = some (c.toNat / 16) :=
                      hexVal_hexDigitLower _ (Nat.div_lt_of_lt_mul (by omega))
                    have hv2 : hexVal (hexDigitLower (c.toNat % 16)) = some (c.toNat % 16) :=
                      hexVal_hexDigitLower _ (Nat.mod_lt _ (by omega))
                    have harith : c.toNat / 16 * 16 + c.toNat % 16 = c.toNat := by omega
                    have harith0 : 0 * 4096 + 0 * 256 + c.toNat / 16 * 16 + c.toNat % 16
                        = c.toNat := by omega
                    simp only [List.cons_append, List.nil_append]
                    rw [parseStrAux.eq_def]
                    simp [hv0, hv1, hv2, ih, harith, harith0, Char.ofNat_toNat]
                  · have e1 : escChar c = [c] := by
                      simp [escChar, h1, h2, h3, h4, h5, h6, h7, h8]
                    rw [e1]
                    simp only [List.cons_append, List.nil_append]
                    rw [parseStrAux.eq_def]
                    simp [h1, h2, ih]

set_option maxHeartbeats 1600000 in
theorem parseUserInfo_stringify (u : UserInfo) :
    parseUserInfoChars (stringifyUserInfo u).data = some u := by
  obtain ⟨e, r, t, b⟩ := u
  have hq : ("\"" : String).data = ['"'] := rfl
  have htrue : ("true" : String).data = ['t', 'r', 'u', 'e'] := rfl
  have hfalse : ("false" : String).data = ['f', 'a', 'l', 's', 'e'] := rfl
  have hd : (stringifyUserInfo ⟨e, r, t, b⟩).data =
      ("\x7b\"email\":").data ++ ('"' :: (e.data.flatMap escChar ++ '"' ::
        ((",\"role\":").data ++ ('"' :: (r.data.flatMap escChar ++ '"' ::
          ((",\"tokenType\":").data ++ ('"' :: (t.data.flatMap escChar ++ '"' ::
            ((",\"loggedIn\":").data ++ ((cond b "true" "false").data ++
              ("\x7d").data)))))))))) := by
    simp [stringifyUserInfo, jsonQuote, hq]
  unfold parseUserInfoChars
  rw [hd]
  cases b with
  | false =>
    simp [expectChars, parseJsonStr, parseStrAux_escape, parseBoolLit, hfalse]
  | true =>
    simp [expectChars, parseJsonStr, parseStrAux_escape, parseBoolLit, htrue]

theorem getUserInfo_setUserInfo (s : Storage) (u : UserInfo) :
    getUserInfo (setUserInfo s u) = some u := by
  have hne : stringifyUserInfo u ≠ "" := by
    intro h
    have hlen := congrArg String.length h
    simp only [stringifyUserInfo, String.length_append] at hlen
    have h9 : ("\x7b\"email\":" : String).length = 9 := rfl
    have h0 : ("" : String).length = 0 := rfl
    rw [h9, h0] at hlen
    omega
  unfold getUserInfo setUserInfo
  rw [getItem_setItem, if_pos rfl]
  show (if stringifyUserInfo u = "" then none
    else parseUserInfoChars (stringifyUserInfo u).data) = some u
  rw [if_neg hne]
  exact parseUserInfo_stringify u

/-- C10: `setUserInfo` then `getUserInfo` returns the stored record
structurally unchanged — the JSON stringify/parse round-trip is the identity
on the `UserInfo` shape — and both operations are total. -/
theorem setUserInfo_getUserInfo_roundtrip (s : Storage) (u : UserInfo) :
    getUserInfo (setUserInfo s u) = some u :=
  getUserInfo_setUserInfo s u

/-- C9: `fetchUserInfo` fails when no access token is persisted; otherwise it
issues a GET to `/bodhi/v1/user` with an `Authorization: Bearer` header and,
on a successful bridge call, persists and returns the `UserInfo` with the
defaulted `role` ("user") and `email` ("Unknown"), `tokenType` "Bearer" and
`loggedIn` true. -/
theorem fetchUserInfo_spec (s : Storage) (bridge : Except String UserEndpointBody) :
    (jsTruthy (getAccessToken s) = false →
      fetchUserInfo s bridge = ⟨Except.error "No access token available", s, none⟩) ∧
    (∀ tok, getAccessToken s = some tok → tok ≠ "" →
      (fetchUserInfo s bridge).request =
        some ⟨"GET", "/bodhi/v1/user", "Bearer " ++ tok⟩ ∧
      ∀ body, bridge = Except.ok body →
        (fetchUserInfo s bridge).result = Except.ok
          ⟨jsOrDefault body.email "Unknown", jsOrDefault body.role "user", "Bearer", true⟩ ∧
        getUserInfo (fetchUserInfo s bridge).storage = some
          ⟨jsOrDefault body.email "Unknown", jsOrDefault body.role "user", "Bearer", true⟩) := by
  constructor
  · intro h
    unfold fetchUserInfo
    rw [if_pos (by simp [h])]
  · intro tok htok hne
    have htruthy : jsTruthy (getAccessToken s) = true := by
      rw [htok]; simp [jsTruthy, bne_iff_ne, hne]
    have hgd : (getAccessToken s).getD "" = tok := by rw [htok]; rfl
    unfold fetchUserInfo
    rw [if_neg (by simp [htruthy])]
    constructor
    · cases bridge with
      | error err => simp [hgd]
      | ok body => simp [hgd]
    · intro body hb
      subst hb
      exact ⟨rfl, getUserInfo_setUserInfo s _⟩

/-- Witness for C9: both the missing-token rejection and a successful fetch
whose body lacks a role (so it defaults to "user"). -/
theorem fetchUserInfo_spec_witness :
    fetchUserInfo ([] : Storage) (Except.ok ⟨some "a@b.c", none⟩) =
      ⟨Except.error "No access token available", ([] : Storage), none⟩ ∧
    (fetchUserInfo [(STORAGE_KEYS.ACCESS_TOKEN, "tok")]
        (Except.ok ⟨some "a@b.c", none⟩)).request =
      some ⟨"GET", "/bodhi/v1/user", "Bearer " ++ "tok"⟩ ∧
    (fetchUserInfo [(STORAGE_KEYS.ACCESS_TOKEN, "tok")]
        (Except.ok ⟨some "a@b.c", none⟩)).result =
      Except.ok ⟨"a@b.c", "user", "Bearer", true⟩ ∧
    getUserInfo (fetchUserInfo [(STORAGE_KEYS.ACCESS_TOKEN, "tok")]
        (Except.ok ⟨some "a@b.c", none⟩)).storage =
      some ⟨"a@b.c", "user", "Bearer", true⟩ := by
  have h1 := (fetchUserInfo_spec ([] : Storage) (Except.ok ⟨some "a@b.c", none⟩)).1 rfl
  have h2 := (fetchUserInfo_spec [(STORAGE_KEYS.ACCESS_TOKEN, "tok")]
      (Except.ok ⟨some "a@b.c", none⟩)).2 "tok" rfl (by decide)
  have h3 := h2.2 ⟨some "a@b.c", none⟩ rfl
  exact ⟨h1, h2.1, h3.1, h3.2⟩

/-! ## Base64 / base64url correspondence (C2) -/

theorem wordBytes_lt (w : Nat) : ∀ b ∈ wordBytes w, b < 256 := by
  intro b hb
  simp only [wordBytes, List.mem_cons, List.not_mem_nil, or_false] at hb
  rcases hb with rfl | rfl | rfl | rfl <;> exact Nat.mod_lt _ (by omega)

theorem sha256_bytes_lt (msg : List Nat) : ∀ x ∈ sha256 msg, x < 256 := by
  intro x hx
  unfold sha256 at hx
  rw [List.mem_flatMap] at hx
  obtain ⟨w, _, hxw⟩ := hx
  exact wordBytes_lt w x hxw

/-- All 64 sextet values: the `+`→`-`, `/`→`_` substitution carries the
base64 alphabet onto the base64url alphabet, and the base64url alphabet
avoids `=`, `+` and `/`. -/
theorem b64_char_swap : ∀ n, n < 64 →
    ((if (if b64Char n = '+' then '-' else b64Char n) = '/' then '_'
      else (if b64Char n = '+' then '-' else b64Char n)) = b64UrlChar n ∧
     ¬ b64UrlChar n = '=' ∧ ¬ b64UrlChar n = '+' ∧ ¬ b64UrlChar n = '/') := by decide

theorem base64_chunks_swap : ∀ (bs : List Nat), (∀ x ∈ bs, x < 256) →
    List.filter (fun c => c ≠ '=')
      (List.map (fun c => if c = '/' then '_' else c)
        (List.map (fun c => if c = '+' then '-' else c) (base64Chars bs)))
      = base64UrlChars bs
  | [], _ => by simp [base64Chars, base64UrlChars]
  | [a], h => by
      have ha : a < 256 := h a (by simp)
      have h1 : a / 4 < 64 := Nat.div_lt_of_lt_mul (by omega)
      have h2 : a % 4 * 16 < 64 := by
        have := Nat.mod_lt a (show 0 < 4 by omega)
        omega
      have c1 := b64_char_swap _ h1
      have c2 := b64_char_swap _ h2
      simp only [base64Chars, base64UrlChars, List.map_cons, List.map_nil, List.filter_cons,
        List.filter_nil]
      simp [c1.1, c2.1, c1.2.1, c2.2.1]
  | [a, b], h => by
      have ha : a < 256 := h a (by simp)
      have hb : b < 256 := h b (by simp)
      have h1 : a / 4 < 64 := Nat.div_lt_of_lt_mul (by omega)
      have h2 : a % 4 * 16 + b / 16 < 64 := by
        have ha4 := Nat.mod_lt a (show 0 < 4 by omega)
        have hb16 : b / 16 < 16 := Nat.div_lt_of_lt_mul (by omega)
        omega
      have h3 : b % 16 * 4 < 64 := by
        have := Nat.mod_lt b (show 0 < 16 by omega)
        omega
      have c1 := b64_char_swap _ h1
      have c2 := b64_char_swap _ h2
      have c3 := b64_char_swap _ h3
      simp only [base64Chars, base64UrlChars, List.map_cons, List.map_nil, List.filter_cons,
        List.filter_nil]
      simp [c1.1, c2.1, c3.1, c1.2.1, c2.2.1, c3.2.1]
  | a :: b :: c :: rest, h => by
      have ha : a < 256 := h a (by simp)
      have hb : b < 256 := h b (by simp)
      have hc : c < 256 := h c (by simp)
      have h1 : a / 4 < 64 := Nat.div_lt_of_lt_mul (by omega)
      have h2 : a % 4 * 16 + b / 16 < 64 := by
        have ha4 := Nat.mod_lt a (show 0 < 4 by omega)
        have hb16 : b / 16 < 16 := Nat.div_lt_of_lt_mul (by omega)
        omega
      have h3 : b % 16 * 4 + c / 64 < 64 := by
        have hb16 := Nat.mod_lt b (show 0 < 16 by omega)
        have hc64 : c / 64 < 4 := Nat.div_lt_of_lt_mul (by omega)
        omega
      have h4 : c % 64 < 64 := Nat.mod_lt _ (by omega)
      have c1 := b64_char_swap _ h1
      have c2 := b64_char_swap _ h2
      have c3 := b64_char_swap _ h3
      have c4 := b64_char_swap _ h4
      have ihr := base64_chunks_swap rest (fun x hx => h x (by simp [hx]))
      simp only [base64Chars, base64UrlChars, List.map_cons, List.filter_cons]
      simp [c1.1, c2.1, c3.1, c4.1, c1.2.1, c2.2.1, c3.2.1, c4.2.1]
      simpa using ihr

theorem base64UrlChars_mem : ∀ (bs : List Nat), (∀ x ∈ bs, x < 256) →
    ∀ ch ∈ base64UrlChars bs, ¬ ch = '+' ∧ ¬ ch = '/' ∧ ¬ ch = '='
  | [], _ => by simp [base64UrlChars]
  | [a], h => by
      have ha : a < 256 := h a (by simp)
      have h1 : a / 4 < 64 := Nat.div_lt_of_lt_mul (by omega)
      have h2 : a % 4 * 16 < 64 := by
        have := Nat.mod_lt a (show 0 < 4 by omega)
        omega
      have c1 := b64_char_swap _ h1
      have c2 := b64_char_swap _ h2
      intro ch hch
      simp only [base64UrlChars, List.mem_cons, List.not_mem_nil, or_false] at hch
      rcases hch with rfl | rfl
      · exact ⟨c1.2.2.1, c1.2.2.2, c1.2.1⟩
      · exact ⟨c2.2.2.1, c2.2.2.2, c2.2.1⟩
  | [a, b], h => by
      have ha : a < 256 := h a (by simp)
      have hb : b < 256 := h b (by simp)
      have h1 : a / 4 < 64 := Nat.div_lt_of_lt_mul (by omega)
      have h2 : a % 4 * 16 + b / 16 < 64 := by
        have ha4 := Nat.mod_lt a (show 0 < 4 by omega)
        have hb16 : b / 16 < 16 := Nat.div_lt_of_lt_mul (by omega)
        omega
      have h3 : b % 16 * 4 < 64 := by
        have := Nat.mod_lt b (show 0 < 16 by omega)
        omega
      have c1 := b64_char_swap _ h1
      have c2 := b64_char_swap _ h2
      have c3 := b64_char_swap _ h3
      intro ch hch
      simp only [base64UrlChars, List.mem_cons, List.not_mem_nil, or_false] at hch
      rcases hch with rfl | rfl | rfl
      · exact ⟨c1.2.2.1, c1.2.2.2, c1.2.1⟩
      · exact ⟨c2.2.2.1, c2.2.2.2, c2.2.1⟩
      · exact ⟨c3.2.2.1, c3.2.2.2, c3.2.1⟩
  | a :: b :: c :: rest, h => by
      have ha : a < 256 := h a (by simp)
      have hb : b < 256 := h b (by simp)
      have hc : c < 256 := h c (by simp)
      have h1 : a / 4 < 64 := Nat.div_lt_of_lt_mul (by omega)
      have h2 : a % 4 * 16 + b / 16 < 64 := by
        have ha4 := Nat.mod_lt a (show 0 < 4 by omega)
        have hb16 : b / 16 < 16 := Nat.div_lt_of_lt_mul (by omega)
        omega
      have h3 : b % 16 * 4 + c / 64 < 64 := by
        have hb16 := Nat.mod_lt b (show 0 < 16 by omega)
        have hc64 : c / 64 < 4 := Nat.div_lt_of_lt_mul (by omega)
        omega
      have h4 : c % 64 < 64 := Nat.mod_lt _ (by omega)
      have c1 := b64_char_swap _ h1
      have c2 := b64_char_swap _ h2
      have c3 := b64_char_swap _ h3
      have c4 := b64_char_swap _ h4
      have ihr := base64UrlChars_mem rest (fun x hx => h x (by simp [hx]))
      intro ch hch
      simp only [base64UrlChars, List.mem_cons] at hch
      rcases hch with rfl | rfl | rfl | rfl | hch
      · exact ⟨c1.2.2.1, c1.2.2.2, c1.2.1⟩
      · exact ⟨c2.2.2.1, c2.2.2.2, c2.2.1⟩
      · exact ⟨c3.2.2.1, c3.2.2.2, c3.2.1⟩
      · exact ⟨c4.2.2.1, c4.2.2.2, c4.2.1⟩
      · exact ihr ch hch

/-- C2: `generatePKCEChallenge` is a function of the verifier (hence
deterministic) and equals the base64url-without-padding encoding of the
SHA-256 digest of the UTF-8 encoded verifier; its result contains no `+`,
`/` or `=` characters. -/
theorem generatePKCEChallenge_spec (verifier : String) :
    generatePKCEChallenge verifier =
      String.mk (base64UrlChars (sha256 (utf8Encode verifier))) ∧
    '+' ∉ (generatePKCEChallenge verifier).data ∧
    '/' ∉ (generatePKCEChallenge verifier).data ∧
    '=' ∉ (generatePKCEChallenge verifier).data := by
  have hb : ∀ x ∈ sha256 (utf8Encode verifier), x < 256 := sha256_bytes_lt _
  have h1 : generatePKCEChallenge verifier =
      String.mk (base64UrlChars (sha256 (utf8Encode verifier))) :=
    congrArg String.mk (base64_chunks_swap _ hb)
  refine ⟨h1, ?_, ?_, ?_⟩
  · rw [h1]
    show '+' ∉ base64UrlChars (sha256 (utf8Encode verifier))
    intro hmem
    exact (base64UrlChars_mem _ hb _ hmem).1 rfl
  · rw [h1]
    show '/' ∉ base64UrlChars (sha256 (utf8Encode verifier))
    intro hmem
    exact (base64UrlChars_mem _ hb _ hmem).2.1 rfl
  · rw [h1]
    show '=' ∉ base64UrlChars (sha256 (utf8Encode verifier))
    intro hmem
    exact (base64UrlChars_mem _ hb _ hmem).2.2 rfl

/-- Witness for C2 at a concrete verifier (by direct application; the
statement itself has no hypotheses). -/
theorem generatePKCEChallenge_spec_witness :
    generatePKCEChallenge "test" =
      String.mk (base64UrlChars (sha256 (utf8Encode "test"))) ∧
    '+' ∉ (generatePKCEChallenge "test").data :=
  ⟨(generatePKCEChallenge_spec "test").1, (generatePKCEChallenge_spec "test").2.1⟩

/-! ## `buildAuthUrl` (C6) -/

theorem scope_join (rs : String) :
    String.intercalate " " ["openid", "email", "profile", "roles", "scope_user_user", rs] =
      "openid email profile roles scope_user_user " ++ rs := rfl

/-- C6: `buildAuthUrl` fails with the resource-scope error exactly when no
(non-empty) resource scope is persisted; otherwise it persists a fresh
32-character state and 128-character code verifier and returns the
authorization URL whose query parameters carry `response_type=code`,
`code_challenge_method=S256`, the challenge of the stored verifier, the
scope `openid email profile roles scope_user_user <resourceScope>`, and a
state equal to the freshly persisted `bodhi_state` value. -/
theorem buildAuthUrl_spec (s : Storage) (origin : String) (sb vb : List Nat)
    (h32 : sb.length = 32) (h128 : vb.length = 128) :
    (buildAuthUrl s origin sb vb =
        Except.error "Resource scope not found. Call requestResourceAccess first." ↔
      jsTruthy (s.getItem STORAGE_KEYS.RESOURCE_SCOPE) = false) ∧
    (∀ rs, s.getItem STORAGE_KEYS.RESOURCE_SCOPE = some rs → rs ≠ "" →
      buildAuthUrl s origin sb vb = Except.ok
        (BODHI_AUTH_URL ++ "/realms/" ++ AUTH_REALM ++ "/protocol/openid-connect/auth?" ++
          encodeParams (authUrlParams rs (generateRandomString sb)
            (generatePKCEChallenge (generateRandomString vb)) origin),
         (s.setItem STORAGE_KEYS.STATE (generateRandomString sb)).setItem
           STORAGE_KEYS.CODE_VERIFIER (generateRandomString vb)) ∧
      (generateRandomString sb).length = 32 ∧
      (generateRandomString vb).length = 128 ∧
      ((s.setItem STORAGE_KEYS.STATE (generateRandomString sb)).setItem
        STORAGE_KEYS.CODE_VERIFIER (generateRandomString vb)).getItem STORAGE_KEYS.STATE =
        some (generateRandomString sb) ∧
      ((s.setItem STORAGE_KEYS.STATE (generateRandomString sb)).setItem
        STORAGE_KEYS.CODE_VERIFIER (generateRandomString vb)).getItem
        STORAGE_KEYS.CODE_VERIFIER = some (generateRandomString vb) ∧
      (authUrlParams rs (generateRandomString sb)
        (generatePKCEChallenge (generateRandomString vb)) origin).lookup "response_type" =
        some "code" ∧
      (authUrlParams rs (generateRandomString sb)
        (generatePKCEChallenge (generateRandomString vb)) origin).lookup
        "code_challenge_method" = some "S256" ∧
      (authUrlParams rs (generateRandomString sb)
        (generatePKCEChallenge (generateRandomString vb)) origin).lookup "scope" =
        some ("openid email profile roles scope_user_user " ++ rs) ∧
      (authUrlParams rs (generateRandomString sb)
        (generatePKCEChallenge (generateRandomString vb)) origin).lookup "state" =
        some (generateRandomString sb) ∧
      (authUrlParams rs (generateRandomString sb)
        (generatePKCEChallenge (generateRandomString vb)) origin).lookup "code_challenge" =
        some (generatePKCEChallenge (generateRandomString vb))) := by
  constructor
  · constructor
    · intro heq
      by_contra hne
      have htruthy : jsTruthy (s.getItem STORAGE_KEYS.RESOURCE_SCOPE) = true := by
        cases hjs : jsTruthy (s.getItem STORAGE_KEYS.RESOURCE_SCOPE) with
        | false => exact absurd hjs hne
        | true => rfl
      unfold buildAuthUrl at heq
      rw [if_neg (by simp [htruthy])] at heq
      exact Except.noConfusion heq
    · intro hfalse
      unfold buildAuthUrl
      rw [if_pos (by simp [hfalse])]
  · intro rs hrs hne
    have htruthy : jsTruthy (s.getItem STORAGE_KEYS.RESOURCE_SCOPE) = true := by
      rw [hrs]; simp [jsTruthy, bne_iff_ne, hne]
    have hgd : (s.getItem STORAGE_KEYS.RESOURCE_SCOPE).getD "" = rs := by rw [hrs]; rfl
    refine ⟨?_, ?_, ?_, ?_, ?_, ?_, ?_, ?_, ?_, ?_⟩
    · unfold buildAuthUrl
      rw [if_neg (by simp [htruthy]), hgd]
    · show (sb.map (fun b => Char.ofNat (b % 26 + 97))).length = 32
      simp [h32]
    · show (vb.map (fun b => Char.ofNat (b % 26 + 97))).length = 128
      simp [h128]
    · rw [getItem_setItem, if_neg (by decide), getItem_setItem, if_pos rfl]
    · rw [getItem_setItem, if_pos rfl]
    · rfl
    · rfl
    · exact congrArg some (scope_join rs)
    · rfl
    · rfl

/-- Witness for C6 at a concrete cached scope and fixed random bytes. -/
theorem buildAuthUrl_spec_witness :
    ("scope_abc" : String) ≠ "" ∧
    (generateRandomString (List.replicate 32 0)).length = 32 ∧
    Storage.getItem
      (Storage.setItem
        (Storage.setItem [(STORAGE_KEYS.RESOURCE_SCOPE, "scope_abc")] STORAGE_KEYS.STATE
          (generateRandomString (List.replicate 32 0)))
        STORAGE_KEYS.CODE_VERIFIER (generateRandomString (List.replicate 128 0)))
      STORAGE_KEYS.STATE = some (generateRandomString (List.replicate 32 0)) ∧
    (authUrlParams "scope_abc" (generateRandomString (List.replicate 32 0))
      (generatePKCEChallenge (generateRandomString (List.replicate 128 0)))
      "https://app.example").lookup "code_challenge_method" = some "S256" := by
  have h := (buildAuthUrl_spec [(STORAGE_KEYS.RESOURCE_SCOPE, "scope_abc")] "https://app.example"
      (List.replicate 32 0) (List.replicate 128 0) (by simp) (by simp)).2 "scope_abc" rfl
      (by decide)
  exact ⟨by decide, h.2.1, h.2.2.2.1, h.2.2.2.2.2.2.1⟩

/-! ## Extension detection (C8) -/

theorem detectLoop_false_aux (available : Nat → Bool) (timeoutMs : Nat)
    (h : ∀ k, available k = false) :
    ∀ n k, timeoutMs - 100 * k ≤ n → detectLoop available timeoutMs k = false := by
  intro n
  induction n with
  | zero =>
    intro k hle
    unfold detectLoop
    rw [h k]
    simp only [Bool.false_eq_true, if_false]
    rw [if_pos (by omega)]
  | succ n ih =>
    intro k hle
    unfold detectLoop
    rw [h k]
    simp only [Bool.false_eq_true, if_false]
    by_cases ht : timeoutMs ≤ 100 * k
    · rw [if_pos ht]
    · rw [if_neg ht]
      exact ih (k + 1) (by omega)

/-- C8: if the capability object is never present during the 100 ms polling
window, `loadExtensionClient` rejects with the `ExtensionNotFoundError`
carrying the timeout value; once detected, a timeout of the identifier race
and any other rejection of the identifier fetch are both surfaced as the
`ExtensionTimeoutError` carrying the same timeout value. -/
theorem loadExtensionClient_spec (available : Nat → Bool) (timeoutMs : Nat)
    (idFetch : IdFetchOutcome) (msg : String) :
    ((∀ k, available k = false) →
      loadExtensionClient available timeoutMs idFetch =
        Except.error (ExtensionError.notFound timeoutMs)) ∧
    (detectLoop available timeoutMs 0 = true →
      loadExtensionClient available timeoutMs IdFetchOutcome.timedOut =
        Except.error (ExtensionError.timeoutFetchingId timeoutMs) ∧
      loadExtensionClient available timeoutMs (IdFetchOutcome.rejectedOther msg) =
        Except.error (ExtensionError.timeoutFetchingId timeoutMs)) ∧
    extensionErrorMessage (ExtensionError.notFound timeoutMs) =
      "Bodhi extension not detected within " ++ toString timeoutMs ++ "ms" ∧
    extensionErrorMessage (ExtensionError.timeoutFetchingId timeoutMs) =
      "Timeout fetching extension ID within " ++ toString timeoutMs ++ "ms" := by
  refine ⟨?_, ?_, rfl, rfl⟩
  · intro h
    have hdet : detectLoop available timeoutMs 0 = false :=
      detectLoop_false_aux available timeoutMs h (timeoutMs - 100 * 0) 0 (by omega)
    unfold loadExtensionClient
    rw [hdet]
    simp
  · intro hdet
    constructor
    · unfold loadExtensionClient
      rw [if_pos hdet]
    · unfold loadExtensionClient
      rw [if_pos hdet]

/-- Witness for C8: a never-present capability object at timeout 250 ms, and
a detected one whose identifier fetch times out or rejects. -/
theorem loadExtensionClient_spec_witness :
    loadExtensionClient (fun _ => false) 250 IdFetchOutcome.timedOut =
      Except.error (ExtensionError.notFound 250) ∧
    loadExtensionClient (fun _ => true) 250 IdFetchOutcome.timedOut =
      Except.error (ExtensionError.timeoutFetchingId 250) ∧
    loadExtensionClient (fun _ => true) 250 (IdFetchOutcome.rejectedOther "boom") =
      Except.error (ExtensionError.timeoutFetchingId 250) := by
  have h1 := (loadExtensionClient_spec (fun _ => false) 250 IdFetchOutcome.timedOut "boom").1
    (fun _ => rfl)
  have h2 := (loadExtensionClient_spec (fun _ => true) 250 IdFetchOutcome.timedOut "boom").2.1
    (by unfold detectLoop; simp)
  exact ⟨h1, h2.1, h2.2⟩
